import Mathlib

/-!
# Expense Tracker — verification of the client-side ledger store

Shallow embedding of the Zustand store in `src/lib/store.ts` together with the
month-filtered views computed in `src/app/(app)/transactions/page.tsx` and
`src/app/(app)/dashboard/page.tsx`, and a spec-modelled backend ledger for the
export/import interface (whose implementation is not part of the frontend
sources).

Modelling conventions:
* `'yyyy-MM-dd'` date strings are represented in parsed form as an `ISODate`
  record of numeric year, month and day; `new Date(s).getFullYear()` /
  `.getMonth() + 1` read back the year/month components (UTC model, no
  timezone shift), and `format(d, 'yyyy-MM')` — the first seven characters of
  the ISO form — is the `(year, month)` projection.
* JavaScript numbers used as currency amounts are modelled as rationals.
* Non-deterministic environment inputs (`Date.now()`-based ids, `new Date()`
  timestamps) are passed in as explicit parameters.
* UI-only state of the store (`addExpenseSheetOpen`, `editingTransaction`) is
  irrelevant to the data-layer claims and omitted; `icon` components are
  modelled by their string identifier.
-/

namespace ExpenseTracker

/-- A parsed `'yyyy-MM-dd'` calendar date. -/
structure ISODate where
  year : Nat
  month : Nat
  day : Nat
deriving DecidableEq, Repr

/-- Numeric key mirroring the ordering of `new Date(s).getTime()` on parsed
`'yyyy-MM-dd'` dates: lexicographic in (year, month, day). -/
def ISODate.dateKey (d : ISODate) : Nat :=
  d.year * 10000 + d.month * 100 + d.day

/-- `format(d, 'yyyy-MM')`: the first seven characters of the ISO form,
i.e. the year/month bucket of a date. -/
def ISODate.yearMonth (d : ISODate) : Nat × Nat :=
  (d.year, d.month)

/-- date-fns `isSameMonth`: same year and same calendar month. -/
def isSameMonth (a b : ISODate) : Bool :=
  a.year == b.year && a.month == b.month

/-- date-fns `startOfMonth` (time-of-day components do not exist here). -/
def startOfMonth (d : ISODate) : ISODate :=
  { d with day := 1 }

/-- Gregorian leap-year rule, as used by the host `Date`. -/
def isLeapYear (y : Nat) : Bool :=
  (y % 4 == 0 && y % 100 != 0) || y % 400 == 0

/-- Number of days in a calendar month. -/
def daysInMonth (y m : Nat) : Nat :=
  if m == 2 then (if isLeapYear y then 29 else 28)
  else if m == 4 || m == 6 || m == 9 || m == 11 then 30
  else 31

/-- date-fns `addMonths(d, 1)`: step to the next calendar month, clamping the
day-of-month to the length of the target month. -/
def addOneMonth (d : ISODate) : ISODate :=
  let y := if d.month == 12 then d.year + 1 else d.year
  let m := if d.month == 12 then 1 else d.month + 1
  { year := y, month := m, day := min d.day (daysInMonth y m) }

/-- date-fns `subMonths(d, 1)`: step to the previous calendar month, clamping
the day-of-month to the length of the target month. -/
def subOneMonth (d : ISODate) : ISODate :=
  let y := if d.month == 1 then d.year - 1 else d.year
  let m := if d.month == 1 then 12 else d.month - 1
  { year := y, month := m, day := min d.day (daysInMonth y m) }

/-- `Category` record of `src/lib/types.ts` (the `LucideIcon` component is
modelled by its string identifier). -/
structure Category where
  id : String
  name : String
  color : String
  icon : String
  isArchived : Bool
  createdAt : String
deriving DecidableEq, Repr

/-- `Transaction` record of `src/lib/types.ts`; `date` is kept in parsed form,
`amount` as a rational. -/
structure Transaction where
  id : String
  date : ISODate
  year : Nat
  month : Nat
  categoryId : String
  amount : ℚ
  notes : Option String
  createdAt : String
deriving DecidableEq, Repr

/-- The data-layer fields of the Zustand `AppState` in `src/lib/store.ts`. -/
structure AppState where
  categories : List Category
  transactions : List Transaction
  currentMonth : ISODate
deriving DecidableEq, Repr

/-- Argument of `addTransaction`: `Omit<Transaction, 'id'|'createdAt'|'year'|'month'>`
(the `date` field may be absent, in which case today's date is used). -/
structure NewTransaction where
  date : Option ISODate
  categoryId : String
  amount : ℚ
  notes : Option String
deriving DecidableEq, Repr

/-- `addTransaction` of `src/lib/store.ts`: builds the new record with
`date = transaction.date || format(new Date(), 'yyyy-MM-dd')`,
`year`/`month` read from `new Date(transaction.date || new Date())`, a fresh
id and `createdAt`, and appends it to `state.transactions`.
`today`, `newId` and `nowTs` stand for `new Date()` / `Date.now()` inputs. -/
def addTransaction (today : ISODate) (newId nowTs : String)
    (txn : NewTransaction) (s : AppState) : AppState :=
  let d := txn.date.getD today
  let newTxn : Transaction :=
    { id := newId
      date := d
      year := d.year
      month := d.month
      categoryId := txn.categoryId
      amount := txn.amount
      notes := txn.notes
      createdAt := nowTs }
  { s with transactions := s.transactions ++ [newTxn] }

/-- `Partial<Transaction>`: each field is either absent (`none`) or supplies a
new value. For the optional `notes` field the supplied value is itself an
`Option String`, as `{ notes: undefined }` is expressible in the source. -/
structure TransactionPatch where
  id : Option String := none
  date : Option ISODate := none
  year : Option Nat := none
  month : Option Nat := none
  categoryId : Option String := none
  amount : Option ℚ := none
  notes : Option (Option String) := none
  createdAt : Option String := none
deriving DecidableEq, Repr

/-- Object spread `{ ...t, ...updatedTxn }`: every field supplied by the patch
overrides the corresponding field of `t`. -/
def applyPatch (t : Transaction) (p : TransactionPatch) : Transaction :=
  { id := p.id.getD t.id
    date := p.date.getD t.date
    year := p.year.getD t.year
    month := p.month.getD t.month
    categoryId := p.categoryId.getD t.categoryId
    amount := p.amount.getD t.amount
    notes := p.notes.getD t.notes
    createdAt := p.createdAt.getD t.createdAt }

/-- `updateTransaction` of `src/lib/store.ts`:
`transactions.map(t => t.id === id ? { ...t, ...updatedTxn } : t)`. -/
def updateTransaction (id : String) (p : TransactionPatch) (s : AppState) : AppState :=
  { s with transactions := s.transactions.map fun t =>
      if t.id == id then applyPatch t p else t }

/-- `deleteTransaction` of `src/lib/store.ts`:
`transactions.filter(t => t.id !== id)`. -/
def deleteTransaction (id : String) (s : AppState) : AppState :=
  { s with transactions := s.transactions.filter fun t => t.id != id }

/-- Argument of `addCategory`:
`Omit<Category, 'id'|'createdAt'|'isArchived'|'icon'> & {icon?: any}`. -/
structure NewCategory where
  name : String
  color : String
  icon : Option String := none
deriving DecidableEq, Repr

/-- `addCategory` of `src/lib/store.ts`: unconditionally builds the new record
(fresh id, `isArchived: false`, fresh `createdAt`, `icon` defaulting to the
`PiggyBank` component), appends it to `state.categories`, and returns it.
There is no duplicate-name check of any kind. -/
def addCategory (newId nowTs : String) (c : NewCategory) (s : AppState) :
    AppState × Category :=
  let newCategory : Category :=
    { id := newId
      name := c.name
      color := c.color
      icon := c.icon.getD "PiggyBank"
      isArchived := false
      createdAt := nowTs }
  ({ s with categories := s.categories ++ [newCategory] }, newCategory)

/-- `deleteCategory` of `src/lib/store.ts`: a total cascade with no failure
path — it removes the category with the given id and every transaction whose
`categoryId` equals it:
`categories.filter(c => c.id !== id)` and
`transactions.filter(t => t.categoryId !== id)`. -/
def deleteCategory (id : String) (s : AppState) : AppState :=
  { s with
    categories := s.categories.filter fun c => c.id != id
    transactions := s.transactions.filter fun t => t.categoryId != id }

/-- `String(name).toLowerCase()` (`Char.toLower` models the per-character
lowercasing of the source's ASCII category names; the map is written over the
character list of the string). -/
def strLower (s : String) : String :=
  ⟨s.data.map Char.toLower⟩

/-- `getCategoryByName` of `src/lib/store.ts`: `if (!name) return undefined`
(absent or empty name gives no result), otherwise the first category whose
lowercased name equals the lowercased query. -/
def getCategoryByName (name : Option String) (s : AppState) : Option Category :=
  match name with
  | none => none
  | some n =>
    if n == "" then none
    else s.categories.find? fun c => strLower c.name == strLower n

/-- `getCategoryById` of `src/lib/store.ts`. -/
def getCategoryById (id : String) (s : AppState) : Option Category :=
  s.categories.find? fun c => c.id == id

/-- `setCurrentMonth` of `src/lib/store.ts`: stores `startOfMonth(date)`. -/
def setCurrentMonth (d : ISODate) (s : AppState) : AppState :=
  { s with currentMonth := startOfMonth d }

/-- `nextMonth` of `src/lib/store.ts`: `addMonths(state.currentMonth, 1)`. -/
def nextMonth (s : AppState) : AppState :=
  { s with currentMonth := addOneMonth s.currentMonth }

/-- `prevMonth` of `src/lib/store.ts`: `subMonths(state.currentMonth, 1)`. -/
def prevMonth (s : AppState) : AppState :=
  { s with currentMonth := subOneMonth s.currentMonth }

/-- Store states reachable through the mutating operations of
`src/lib/store.ts`: the initial state (`categories: []`, `transactions: []`,
`currentMonth: startOfMonth(new Date())` for an arbitrary current date)
followed by any sequence of `addTransaction`, `updateTransaction`,
`deleteTransaction`, `addCategory`, `deleteCategory`, `setCurrentMonth`,
`nextMonth` and `prevMonth` (the remaining store members are read-only or
UI-only). -/
inductive ReachableState : AppState → Prop
  | init (d : ISODate) :
      ReachableState { categories := [], transactions := [],
                       currentMonth := startOfMonth d }
  | addTxn (today : ISODate) (newId nowTs : String) (txn : NewTransaction)
      (s : AppState) : ReachableState s →
      ReachableState (addTransaction today newId nowTs txn s)
  | updateTxn (id : String) (p : TransactionPatch) (s : AppState) :
      ReachableState s → ReachableState (updateTransaction id p s)
  | deleteTxn (id : String) (s : AppState) :
      ReachableState s → ReachableState (deleteTransaction id s)
  | addCat (newId nowTs : String) (c : NewCategory) (s : AppState) :
      ReachableState s → ReachableState (addCategory newId nowTs c s).1
  | deleteCat (id : String) (s : AppState) :
      ReachableState s → ReachableState (deleteCategory id s)
  | setMonth (d : ISODate) (s : AppState) :
      ReachableState s → ReachableState (setCurrentMonth d s)
  | stepNext (s : AppState) : ReachableState s → ReachableState (nextMonth s)
  | stepPrev (s : AppState) : ReachableState s → ReachableState (prevMonth s)

/-- Descending-date order used by the transactions page sort comparator
`(a, b) => new Date(b.date).getTime() - new Date(a.date).getTime()`:
`a` may precede `b` when `b`'s date key is at most `a`'s. -/
def txnDateDesc (a b : Transaction) : Prop :=
  b.date.dateKey ≤ a.date.dateKey

instance : DecidableRel txnDateDesc := fun a b =>
  inferInstanceAs (Decidable (b.date.dateKey ≤ a.date.dateKey))

instance : IsTotal Transaction txnDateDesc :=
  ⟨fun a b => (Nat.le_total b.date.dateKey a.date.dateKey).imp id id⟩

instance : IsTrans Transaction txnDateDesc :=
  ⟨fun _ _ _ hab hbc => Nat.le_trans hbc hab⟩

/-- `filteredTransactions` of `src/app/(app)/transactions/page.tsx`:
`transactions.filter(t => isSameMonth(new Date(t.date), currentMonth))
            .sort((a, b) => new Date(b.date).getTime() - new Date(a.date).getTime())`
(`Array.prototype.sort` is a stable sort consistent with the comparator,
modelled by a stable insertion sort). -/
def filteredTransactions (s : AppState) : List Transaction :=
  (s.transactions.filter fun t => isSameMonth t.date s.currentMonth).insertionSort
    txnDateDesc

/-- `filteredTransactions` of `src/app/(app)/dashboard/page.tsx`:
`transactions.filter(t => isSameMonth(toUTCDate(t.date), currentMonth))`. -/
def dashboardFiltered (s : AppState) : List Transaction :=
  s.transactions.filter fun t => isSameMonth t.date s.currentMonth

/-- One step of the dashboard's `categoryTotals` accumulation:
`categoryTotals[t.categoryId] = (categoryTotals[t.categoryId] || 0) + t.amount`
on a `Record<string, number>` kept as an insertion-ordered association list. -/
def addToTotals (totals : List (String × ℚ)) (cid : String) (amt : ℚ) :
    List (String × ℚ) :=
  if totals.any fun p => p.1 == cid then
    totals.map fun p => if p.1 == cid then (p.1, p.2 + amt) else p
  else totals ++ [(cid, amt)]

/-- The dashboard's `categoryTotals` record built by
`filteredTransactions.forEach(...)`. -/
def categoryTotals (txns : List Transaction) : List (String × ℚ) :=
  txns.foldl (fun acc t => addToTotals acc t.categoryId t.amount) []

/-- `categoryTotals[cid] || 0`: lookup in the record, defaulting to `0`. -/
def lookupTotal (totals : List (String × ℚ)) (cid : String) : ℚ :=
  match totals.find? fun p => p.1 == cid with
  | some p => p.2
  | none => 0

/-- The object returned by the dashboard's `summary` memo: `total`,
`transactionCount` and the display name of the top category. -/
structure Summary where
  total : ℚ
  transactionCount : Nat
  topCategory : String
deriving DecidableEq, Repr

/-- Order used by `Object.entries(categoryTotals).sort((a, b) => b[1] - a[1])`:
subtotal descending. -/
def entryDesc (a b : String × ℚ) : Prop :=
  b.2 ≤ a.2

instance : DecidableRel entryDesc := fun a b =>
  inferInstanceAs (Decidable (b.2 ≤ a.2))

/-- The dashboard's `summary` memo of `src/app/(app)/dashboard/page.tsx`:
`total = filteredTransactions.reduce((sum, t) => sum + t.amount, 0)`,
`transactionCount = filteredTransactions.length`, and `topCategory` the name of
the category found for the largest `categoryTotals` entry (`'N/A'` when the
month is empty or the category id is unknown). -/
def summary (s : AppState) : Summary :=
  let filtered := dashboardFiltered s
  let total := filtered.foldl (fun sum t => sum + t.amount) 0
  let totals := categoryTotals filtered
  let topCategoryEntry := (totals.insertionSort entryDesc).head?
  let topCategory :=
    match topCategoryEntry with
    | some e =>
      match s.categories.find? fun c => c.id == e.1 with
      | some c => c.name
      | none => "N/A"
    | none => "N/A"
  { total := total
    transactionCount := filtered.length
    topCategory := topCategory }

/-- Modelled from the spec: a category record of the backend Expense Ledger
Store (§3, §6). The store's implementation (the Python `DatabaseService`) is
not among the frontend sources; only its HTTP client wrappers are
(`exportData` / `importData` in the unnamed server-actions file). -/
structure LedgerCategory where
  id : String
  name : String
  color : String
  icon : String
  createdAt : String
deriving DecidableEq, Repr

/-- Modelled from the spec: a transaction record of the backend Expense Ledger
Store (§3, §6), with the derived `year_month` bucket and both lifecycle
timestamps. -/
structure LedgerTransaction where
  id : String
  amount : ℚ
  categoryId : String
  categoryName : String
  notes : Option String
  date : ISODate
  yearMonth : Nat × Nat
  createdAt : String
  updatedAt : String
deriving DecidableEq, Repr

/-- Modelled from the spec: the backend store's contents — all categories and
all transactions. -/
structure Ledger where
  categories : List LedgerCategory
  transactions : List LedgerTransaction
deriving DecidableEq, Repr

/-- Modelled from the spec: the export payload of §6 — all categories and all
transactions, structured for lossless round-trip. -/
structure Snapshot where
  categories : List LedgerCategory
  transactions : List LedgerTransaction
deriving DecidableEq, Repr

/-- Modelled from the spec: a freshly emptied store. -/
def emptyLedger : Ledger :=
  { categories := [], transactions := [] }

/-- Modelled from the spec: `export_data()` produces a complete snapshot of
the store (§4.1, §6). -/
def exportData (l : Ledger) : Snapshot :=
  { categories := l.categories, transactions := l.transactions }

/-- Modelled from the spec: insert-or-replace by id, the §4.1 upsert policy
for `import_data` (the policy that makes export → import idempotent, as §6
requires). Replaces an existing record with the same key, otherwise appends. -/
def upsertBy {α : Type} (key : α → String) (l : List α) (x : α) : List α :=
  if l.any fun y => key y == key x then
    l.map fun y => if key y == key x then x else y
  else l ++ [x]

/-- Modelled from the spec: `import_data(snapshot)` inserts every record of
the snapshot into the store, upserting by id (§4.1). -/
def importData (snap : Snapshot) (l : Ledger) : Ledger :=
  { categories := snap.categories.foldl (upsertBy LedgerCategory.id) l.categories
    transactions :=
      snap.transactions.foldl (upsertBy LedgerTransaction.id) l.transactions }

/-! ## Helper lemmas -/

/-- The code's `isSameMonth` test is exactly equality of the `'yyyy-MM'`
buckets of the two dates. -/
theorem isSameMonth_iff (a b : ISODate) :
    isSameMonth a b = true ↔ a.yearMonth = b.yearMonth := by
  simp [isSameMonth, ISODate.yearMonth, Prod.ext_iff, Bool.and_eq_true]

/-- `startOfMonth d = d` says exactly that `d` is the first of its month. -/
theorem startOfMonth_eq_iff (d : ISODate) : startOfMonth d = d ↔ d.day = 1 := by
  cases d
  simp [startOfMonth, ISODate.mk.injEq, eq_comm]

/-- Every month has at least one day. -/
theorem daysInMonth_pos (y m : Nat) : 1 ≤ daysInMonth y m := by
  unfold daysInMonth
  split
  · split <;> decide
  · split <;> decide

/-- Folding `sum + t.amount` over a list adds the list's total amount. -/
theorem foldl_add_amount (l : List Transaction) (init : ℚ) :
    l.foldl (fun sum t => sum + t.amount) init
      = init + (l.map Transaction.amount).sum := by
  induction l generalizing init with
  | nil => simp
  | cons a l ih => simp [ih, add_assoc]

/-- `lookupTotal` on the empty record is `0`. -/
theorem lookupTotal_nil (cid : String) : lookupTotal [] cid = 0 := rfl

/-- `lookupTotal` on a non-empty record: the head entry if its key matches,
the rest of the record otherwise. -/
theorem lookupTotal_cons (p : String × ℚ) (ps : List (String × ℚ))
    (cid : String) :
    lookupTotal (p :: ps) cid = if p.1 = cid then p.2 else lookupTotal ps cid := by
  by_cases h : p.1 = cid
  · rw [if_pos h]
    unfold lookupTotal
    rw [List.find?_cons_of_pos ps (show ((p.1 == cid) = true) by simp [h])]
  · rw [if_neg h]
    unfold lookupTotal
    rw [List.find?_cons_of_neg ps (show ¬ ((p.1 == cid) = true) by simp [h])]

/-- The record-update step of the dashboard's `forEach` never changes the
subtotal of an unrelated key. -/
theorem lookupTotal_map_bump (totals : List (String × ℚ)) (c cid : String)
    (a : ℚ) (h : cid ≠ c) :
    lookupTotal (totals.map fun p => if p.1 == c then (p.1, p.2 + a) else p) cid
      = lookupTotal totals cid := by
  induction totals with
  | nil => rfl
  | cons p ps ih =>
    rw [List.map_cons, lookupTotal_cons, lookupTotal_cons]
    have hfst : (if p.1 == c then (p.1, p.2 + a) else p).1 = p.1 := by
      split <;> rfl
    rw [hfst]
    by_cases h2 : p.1 = cid
    · rw [if_pos h2, if_pos h2]
      have hc : (p.1 == c) = false := by
        simp only [beq_eq_false_iff_ne, ne_eq, h2]
        exact fun hh => h hh
      rw [if_neg (by simp [hc])]
    · rw [if_neg h2, if_neg h2, ih]

/-- The record-update step applied to a present key bumps exactly that key's
subtotal. -/
theorem lookupTotal_map_bump_self (totals : List (String × ℚ)) (c : String)
    (a : ℚ) (h : totals.any (fun p => p.1 == c) = true) :
    lookupTotal (totals.map fun p => if p.1 == c then (p.1, p.2 + a) else p) c
      = lookupTotal totals c + a := by
  induction totals with
  | nil => simp at h
  | cons p ps ih =>
    rw [List.map_cons, lookupTotal_cons, lookupTotal_cons]
    have hfst : (if p.1 == c then (p.1, p.2 + a) else p).1 = p.1 := by
      split <;> rfl
    rw [hfst]
    by_cases h1 : p.1 = c
    · rw [if_pos h1, if_pos h1, if_pos (show ((p.1 == c) = true) by simp [h1])]
    · have h' : ps.any (fun p => p.1 == c) = true := by
        simpa [List.any_cons, h1] using h
      rw [if_neg h1, if_neg h1]
      exact ih h'

/-- Appending a fresh key reads back its amount and leaves other keys alone. -/
theorem lookupTotal_append_fresh (totals : List (String × ℚ)) (c cid : String)
    (a : ℚ) (h : totals.any (fun p => p.1 == c) = false) :
    lookupTotal (totals ++ [(c, a)]) cid
      = lookupTotal totals cid + (if cid = c then a else 0) := by
  induction totals with
  | nil =>
    by_cases h2 : cid = c
    · subst h2
      simp [lookupTotal_cons, lookupTotal_nil]
    · have h3 : ¬ c = cid := fun hh => h2 hh.symm
      simp [lookupTotal_cons, lookupTotal_nil, h2, h3]
  | cons p ps ih =>
    have h1 : ¬ p.1 = c := by
      intro hh
      simp [List.any_cons, hh] at h
    have h' : ps.any (fun p => p.1 == c) = false := by
      simpa [List.any_cons, h1] using h
    rw [List.cons_append, lookupTotal_cons, lookupTotal_cons]
    by_cases h2 : p.1 = cid
    · have h3 : ¬ cid = c := fun hh => h1 (h2.trans hh)
      rw [if_pos h2, if_pos h2, if_neg h3, add_zero]
    · rw [if_neg h2, if_neg h2, ih h']

/-- One `forEach` step of `categoryTotals` adds the transaction's amount to
its category's subtotal and nothing else. -/
theorem lookupTotal_addToTotals (totals : List (String × ℚ)) (c cid : String)
    (a : ℚ) :
    lookupTotal (addToTotals totals c a) cid
      = lookupTotal totals cid + (if cid = c then a else 0) := by
  unfold addToTotals
  cases hc : totals.any fun p => p.1 == c with
  | true =>
    rw [if_pos rfl]
    by_cases h2 : cid = c
    · subst h2
      rw [if_pos rfl, lookupTotal_map_bump_self totals cid a hc]
    · rw [if_neg h2, add_zero, lookupTotal_map_bump totals c cid a h2]
  | false =>
    rw [if_neg (by simp)]
    exact lookupTotal_append_fresh totals c cid a hc

/-- The accumulated `categoryTotals` record assigns every category id the sum
of the amounts of the month's transactions in that category. -/
theorem lookupTotal_foldl (txns : List Transaction) (acc : List (String × ℚ))
    (cid : String) :
    lookupTotal (txns.foldl (fun acc t => addToTotals acc t.categoryId t.amount) acc) cid
      = lookupTotal acc cid
        + ((txns.filter fun t => t.categoryId == cid).map Transaction.amount).sum := by
  induction txns generalizing acc with
  | nil => simp
  | cons t ts ih =>
    rw [List.foldl_cons, ih]
    rw [lookupTotal_addToTotals]
    by_cases h : t.categoryId = cid
    · simp [List.filter_cons, h, add_assoc]
    · have h' : ¬ cid = t.categoryId := fun hh => h hh.symm
      simp [List.filter_cons, h, h']

/-- Upserting a record whose key is fresh for the accumulator appends it. -/
theorem upsertBy_append {α : Type} (key : α → String) (acc : List α) (x : α)
    (h : ∀ y ∈ acc, key y ≠ key x) :
    upsertBy key acc x = acc ++ [x] := by
  unfold upsertBy
  rw [if_neg]
  simp only [List.any_eq_true, beq_iff_eq, not_exists, not_and]
  exact h

/-- Folding upserts of key-disjoint, key-nodup records appends them all in
order. -/
theorem foldl_upsert_of_disjoint {α : Type} (key : α → String) (xs : List α) :
    ∀ acc : List α, (xs.map key).Nodup →
      (∀ x ∈ xs, ∀ y ∈ acc, key y ≠ key x) →
      xs.foldl (upsertBy key) acc = acc ++ xs := by
  induction xs with
  | nil => intro acc _ _; simp
  | cons x xs ih =>
    intro acc hnd hdis
    rw [List.foldl_cons,
      upsertBy_append key acc x (fun y hy => hdis x (List.mem_cons_self x xs) y hy)]
    have hnd2 := hnd
    rw [List.map_cons] at hnd2
    obtain ⟨hhead, hnd'⟩ := List.nodup_cons.mp hnd2
    have hdis' : ∀ x' ∈ xs, ∀ y ∈ acc ++ [x], key y ≠ key x' := by
      intro x' hx' y hy
      rcases List.mem_append.mp hy with hy | hy
      · exact hdis x' (List.mem_cons_of_mem x hx') y hy
      · have : y = x := List.mem_singleton.mp hy
        subst this
        intro hkey
        exact hhead (hkey ▸ List.mem_map_of_mem key hx')
    rw [ih (acc ++ [x]) hnd' hdis']
    simp

/-- Replacing by a key that occurs nowhere in the record is the identity. -/
theorem map_replace_of_not_mem {α : Type} (key : α → String) (l : List α)
    (x : α) (h : ∀ y ∈ l, key y ≠ key x) :
    (l.map fun y => if key y == key x then x else y) = l := by
  induction l with
  | nil => rfl
  | cons y ys ih =>
    have hy : ¬ key y = key x := h y (List.mem_cons_self y ys)
    rw [List.map_cons, if_neg (by simpa using hy),
      ih (fun z hz => h z (List.mem_cons_of_mem y hz))]

/-- Upserting a record already present in a key-nodup list is the identity. -/
theorem upsertBy_self {α : Type} (key : α → String) (l : List α) (x : α)
    (hx : x ∈ l) (hnd : (l.map key).Nodup) :
    upsertBy key l x = l := by
  unfold upsertBy
  rw [if_pos (by simp only [List.any_eq_true, beq_iff_eq]; exact ⟨x, hx, rfl⟩)]
  induction l with
  | nil => simp at hx
  | cons y ys ih =>
    have hnd2 := hnd
    rw [List.map_cons] at hnd2
    obtain ⟨hhead, hnd'⟩ := List.nodup_cons.mp hnd2
    by_cases h1 : key y = key x
    · have hxy : x = y := by
        rcases List.mem_cons.mp hx with hxy | hxys
        · exact hxy
        · exact absurd (h1 ▸ List.mem_map_of_mem key hxys) hhead
      subst hxy
      rw [List.map_cons, if_pos (by simp [h1]),
        map_replace_of_not_mem key ys x
          (fun z hz hk => hhead (h1 ▸ hk ▸ List.mem_map_of_mem key hz))]
    · have hxys : x ∈ ys := by
        rcases List.mem_cons.mp hx with hxy | hxys
        · exact absurd (congrArg key hxy).symm h1
        · exact hxys
      rw [List.map_cons, if_neg (by simpa using h1), ih hxys hnd']

/-- Folding upserts of records already present in a key-nodup list leaves it
unchanged. -/
theorem foldl_upsert_self {α : Type} (key : α → String) (xs l : List α)
    (hnd : (l.map key).Nodup) (hsub : ∀ x ∈ xs, x ∈ l) :
    xs.foldl (upsertBy key) l = l := by
  induction xs with
  | nil => rfl
  | cons x xs ih =>
    rw [List.foldl_cons, upsertBy_self key l x (hsub x (List.mem_cons_self x xs)) hnd]
    exact ih fun x' hx' => hsub x' (List.mem_cons_of_mem x hx')

/-! ## Concrete fixtures used by counterexamples and witnesses -/

/-- A stored category named `Food`. -/
def catFood : Category :=
  { id := "cat-1", name := "Food", color := "#ff0000", icon := "PiggyBank",
    isArchived := false, createdAt := "t0" }

/-- A stored transaction of January 2024 referencing `catFood`. -/
def txnFood : Transaction :=
  { id := "txn-1", date := ⟨2024, 1, 15⟩, year := 2024, month := 1,
    categoryId := "cat-1", amount := 10, notes := none, createdAt := "t0" }

/-- A store holding `catFood` and `txnFood`, viewing January 2024. -/
def store0 : AppState :=
  { categories := [catFood], transactions := [txnFood],
    currentMonth := ⟨2024, 1, 1⟩ }

/-- `store0` after a second `addCategory` with the already-used name `Food`. -/
def store2 : AppState :=
  (addCategory "cat-2" "t2" { name := "Food", color := "#00ff00" } store0).1

/-! ## Claim theorems -/

/-- C9: `deleteCategory(id)` is a total function with no error path — it
succeeds on every store state — and cascades: afterwards no category with that
id and no transaction whose `categoryId` equals that id remains, while exactly
the categories with a different id and the transactions referencing a
different category remain, in their original order (the deleted collections
are sublists of the originals). -/
theorem deleteCategory_cascade (s : AppState) (id : String) :
    (∀ c : Category, c ∈ (deleteCategory id s).categories ↔
      c ∈ s.categories ∧ c.id ≠ id)
    ∧ (∀ t : Transaction, t ∈ (deleteCategory id s).transactions ↔
      t ∈ s.transactions ∧ t.categoryId ≠ id)
    ∧ ((deleteCategory id s).categories.Sublist s.categories)
    ∧ ((deleteCategory id s).transactions.Sublist s.transactions) := by
  refine ⟨fun c => ?_, fun t => ?_, List.filter_sublist _, List.filter_sublist _⟩
  · simp [deleteCategory, List.mem_filter]
  · simp [deleteCategory, List.mem_filter]

/-- C1 counterexample: in the concrete store `store0`, the category `cat-1`
is referenced by the transaction `txnFood`, yet `deleteCategory "cat-1"` does
not fail with a `ConflictError` and does not leave the collections unchanged:
it is a total function (no error value exists in its type) and it changes both
the categories and the transactions collections. -/
theorem deleteCategory_referenced_changes_store :
    (txnFood ∈ store0.transactions ∧ txnFood.categoryId = "cat-1")
    ∧ (deleteCategory "cat-1" store0).categories ≠ store0.categories
    ∧ (deleteCategory "cat-1" store0).transactions ≠ store0.transactions := by
  refine ⟨⟨?_, ?_⟩, ?_, ?_⟩ <;> decide

/-- C1 amended: deleting a category that is still referenced by at least one
transaction does not fail; `deleteCategory` cascades, removing the category
and every transaction referencing it — in particular the transactions
collection actually changes. -/
theorem deleteCategory_referenced_cascades (s : AppState) (id : String)
    (h : ∃ t ∈ s.transactions, t.categoryId = id) :
    (∀ c ∈ (deleteCategory id s).categories, c.id ≠ id)
    ∧ (∀ t ∈ (deleteCategory id s).transactions, t.categoryId ≠ id)
    ∧ (deleteCategory id s).transactions ≠ s.transactions := by
  obtain ⟨t0, ht0, hcat⟩ := h
  refine ⟨?_, ?_, ?_⟩
  · intro c hc
    exact ((by simpa [deleteCategory, List.mem_filter] using hc :
      c ∈ s.categories ∧ ¬ c.id = id)).2
  · intro t ht
    exact ((by simpa [deleteCategory, List.mem_filter] using ht :
      t ∈ s.transactions ∧ ¬ t.categoryId = id)).2
  · intro heq
    have hmem : t0 ∈ (deleteCategory id s).transactions := by
      rw [show (deleteCategory id s).transactions = s.transactions from heq]
      exact ht0
    have : t0 ∈ s.transactions ∧ ¬ t0.categoryId = id := by
      simpa [deleteCategory, List.mem_filter] using hmem
    exact this.2 hcat

/-- Witness for the C1 amended theorem at the concrete store `store0`. -/
theorem deleteCategory_referenced_cascades_witness :
    (∀ c ∈ (deleteCategory "cat-1" store0).categories, c.id ≠ "cat-1")
    ∧ (∀ t ∈ (deleteCategory "cat-1" store0).transactions,
        t.categoryId ≠ "cat-1")
    ∧ (deleteCategory "cat-1" store0).transactions ≠ store0.transactions :=
  deleteCategory_referenced_cascades store0 "cat-1"
    ⟨txnFood, by decide, by decide⟩

/-- C2 counterexample: `store0` already holds a category named `Food`, yet
`addCategory` with the same name does not fail with a `ConflictError` and does
not leave the categories unchanged: the resulting store `store2` holds two
categories named `Food`, and `store2` is a reachable store state, refuting the
uniqueness invariant. -/
theorem addCategory_duplicate_succeeds :
    store2.categories ≠ store0.categories
    ∧ store2.categories.countP (fun c => c.name == "Food") = 2
    ∧ ReachableState store2 := by
  refine ⟨by decide, by decide, ?_⟩
  have h0 : ReachableState store0 := by
    have h1 := ReachableState.init ⟨2024, 1, 1⟩
    have h2 := ReachableState.addCat "cat-1" "t0"
      { name := "Food", color := "#ff0000" } _ h1
    have h3 := ReachableState.addTxn ⟨2024, 1, 15⟩ "txn-1" "t0"
      { date := some ⟨2024, 1, 15⟩, categoryId := "cat-1", amount := 10,
        notes := none } _ h2
    have heq : addTransaction ⟨2024, 1, 15⟩ "txn-1" "t0"
        { date := some ⟨2024, 1, 15⟩, categoryId := "cat-1", amount := 10,
          notes := none }
        (addCategory "cat-1" "t0" { name := "Food", color := "#ff0000" }
          { categories := [], transactions := [],
            currentMonth := startOfMonth ⟨2024, 1, 1⟩ }).1 = store0 := by
      decide
    exact heq ▸ h3
  exact ReachableState.addCat "cat-2" "t2"
    { name := "Food", color := "#00ff00" } store0 h0

/-- C2 amended: `addCategory` performs no duplicate-name check: it always
appends the new category to the stored list and returns it; when a category
with the requested name already exists, the store afterwards holds at least
two categories with that name, so `name` is not unique across stored
categories. -/
theorem addCategory_no_name_check (newId nowTs : String) (c : NewCategory)
    (s : AppState) (h : ∃ c' ∈ s.categories, c'.name = c.name) :
    (addCategory newId nowTs c s).1.categories
      = s.categories ++ [(addCategory newId nowTs c s).2]
    ∧ (addCategory newId nowTs c s).2.name = c.name
    ∧ 2 ≤ (addCategory newId nowTs c s).1.categories.countP
        (fun x => x.name == c.name) := by
  obtain ⟨c', hc', hname⟩ := h
  refine ⟨rfl, rfl, ?_⟩
  have h1 : 0 < s.categories.countP (fun x => x.name == c.name) :=
    List.countP_pos_iff.mpr ⟨c', hc', by simp [hname]⟩
  have h2 : (addCategory newId nowTs c s).1.categories.countP
      (fun x => x.name == c.name)
      = s.categories.countP (fun x => x.name == c.name) + 1 := by
    rw [show (addCategory newId nowTs c s).1.categories
        = s.categories ++ [(addCategory newId nowTs c s).2] from rfl,
      List.countP_append]
    simp [addCategory]
  omega

/-- Witness for the C2 amended theorem at the concrete store `store0`. -/
theorem addCategory_no_name_check_witness :
    2 ≤ (addCategory "cat-2" "t2" { name := "Food", color := "#00ff00" }
        store0).1.categories.countP (fun x => x.name == "Food") :=
  (addCategory_no_name_check "cat-2" "t2"
    { name := "Food", color := "#00ff00" } store0
    ⟨catFood, by decide, by decide⟩).2.2

/-- C8 counterexample: in `store0` the stored category is named `Food`; the
query `FOOD` differs from it only in letter case, yet the lookup finds it —
category lookup by name is not case-sensitive. -/
theorem getCategoryByName_case_insensitive_hit :
    getCategoryByName (some "FOOD") store0 = some catFood
    ∧ "FOOD" ≠ catFood.name := by
  constructor <;> decide

/-- C8 amended: category lookup by name is case-insensitive: for a non-empty
query, `getCategoryByName` returns the first stored category whose lowercased
name equals the lowercased query — any returned category matches the query up
to letter case, and whenever some stored category matches up to letter case
the lookup succeeds. -/
theorem getCategoryByName_lowercases (s : AppState) (n : String)
    (h : n ≠ "") :
    (∀ c : Category, getCategoryByName (some n) s = some c →
      c ∈ s.categories ∧ strLower c.name = strLower n)
    ∧ ((∃ c ∈ s.categories, strLower c.name = strLower n) →
      ∃ c, getCategoryByName (some n) s = some c) := by
  have hn : ¬ ((n == "") = true) := by simp [h]
  constructor
  · intro c hc
    rw [getCategoryByName, if_neg hn] at hc
    exact ⟨List.mem_of_find?_eq_some hc, by simpa using List.find?_some hc⟩
  · rintro ⟨c, hcmem, hlow⟩
    have hsome : (s.categories.find? fun c =>
        strLower c.name == strLower n).isSome :=
      List.find?_isSome.mpr ⟨c, hcmem, by simp [hlow]⟩
    obtain ⟨c', hc'⟩ := Option.isSome_iff_exists.mp hsome
    exact ⟨c', by rw [getCategoryByName, if_neg hn]; exact hc'⟩

/-- Witness for the C8 amended theorem: the query `FOOD` (non-empty, and
matching the stored name `Food` up to case) succeeds on `store0`. -/
theorem getCategoryByName_lowercases_witness :
    ∃ c, getCategoryByName (some "FOOD") store0 = some c :=
  (getCategoryByName_lowercases store0 "FOOD" (by decide)).2
    ⟨catFood, by decide, by decide⟩

/-- C3 counterexample: updating the stored January transaction's date to
February 2024 leaves its stored `year`/`month` bucket at `(2024, 1)` while the
date's first-seven-characters bucket is `(2024, 2)` — the bucket is not
recomputed from the new date. -/
theorem staleBucket_after_date_update :
    ¬ ∀ t ∈ (updateTransaction "txn-1" { date := some ⟨2024, 2, 20⟩ }
        store0).transactions, (t.year, t.month) = t.date.yearMonth := by
  decide

/-- C3 amended: the `(year, month)` bucket equals the date's
first-seven-characters bucket immediately after `addTransaction` (for every
transaction of the resulting store that was not already present), but
`updateTransaction` never recomputes it: for any patch that does not itself
supply `year`/`month` — in particular a date-changing patch — every stored
transaction keeps its old `year`/`month` values. -/
theorem bucket_set_at_creation_only :
    (∀ (today : ISODate) (newId nowTs : String) (txn : NewTransaction)
      (s : AppState),
      ∀ t ∈ (addTransaction today newId nowTs txn s).transactions,
        t ∈ s.transactions ∨ (t.year, t.month) = t.date.yearMonth)
    ∧ (∀ (id : String) (p : TransactionPatch) (s : AppState),
      p.year = none → p.month = none →
      (updateTransaction id p s).transactions.map (fun t => (t.year, t.month))
        = s.transactions.map (fun t => (t.year, t.month))) := by
  constructor
  · intro today newId nowTs txn s t ht
    rcases List.mem_append.mp ht with hmem | hnew
    · exact Or.inl hmem
    · right
      rw [List.mem_singleton.mp hnew]
      rfl
  · intro id p s hyear hmonth
    rw [show (updateTransaction id p s).transactions
      = s.transactions.map (fun t => if t.id == id then applyPatch t p else t)
      from rfl, List.map_map]
    refine List.map_congr_left fun t _ => ?_
    by_cases h : (t.id == id) = true
    · simp only [Function.comp, h, if_pos]
      simp [applyPatch, hyear, hmonth]
    · simp only [Function.comp, h, if_neg]
      simp [h]

/-- Witness for the C3 amended theorem: the February date-change patch at the
concrete store `store0` leaves the stored buckets unchanged. -/
theorem bucket_set_at_creation_only_witness :
    (updateTransaction "txn-1" { date := some ⟨2024, 2, 20⟩ }
        store0).transactions.map (fun t => (t.year, t.month))
      = store0.transactions.map (fun t => (t.year, t.month)) :=
  bucket_set_at_creation_only.2 "txn-1" { date := some ⟨2024, 2, 20⟩ } store0
    rfl rfl

/-- C4 counterexample: a notes-only update of the stored transaction produces
a record identical to the old one except for `notes`; in particular
`createdAt` — the only timestamp field a `Transaction` of `src/lib/types.ts`
has (there is no `updatedAt` field at all) — is not refreshed. -/
theorem updateNotes_no_timestamp_refresh :
    (updateTransaction "txn-1" { notes := some (some "updated") }
        store0).transactions = [{ txnFood with notes := some "updated" }]
    ∧ ({ txnFood with notes := some "updated" } : Transaction).createdAt
      = txnFood.createdAt := by
  constructor <;> decide

/-- C4 amended: for every stored transaction and every partial update
supplying only the `notes` field, `updateTransaction` leaves that
transaction's `amount`, `categoryId` and `date` unchanged — and also its
`createdAt`, the only timestamp a `Transaction` has (no `updated_at` exists to
refresh) — and leaves every transaction with a different id, and the
categories, entirely unchanged. -/
theorem updateNotes_frame (id : String) (v : Option String) (s : AppState) :
    (updateTransaction id { notes := some v } s).categories = s.categories
    ∧ List.Forall₂ (fun t u : Transaction =>
        u.amount = t.amount ∧ u.categoryId = t.categoryId ∧ u.date = t.date
        ∧ u.createdAt = t.createdAt ∧ (t.id ≠ id → u = t))
      s.transactions (updateTransaction id { notes := some v } s).transactions := by
  refine ⟨rfl, ?_⟩
  rw [show (updateTransaction id { notes := some v } s).transactions
    = s.transactions.map
        (fun t => if t.id == id then applyPatch t { notes := some v } else t)
    from rfl]
  rw [List.forall₂_map_right_iff]
  rw [List.forall₂_same]
  intro t _
  by_cases h : (t.id == id) = true
  · rw [if_pos h]
    exact ⟨rfl, rfl, rfl, rfl, fun hne => absurd (by simpa using h) hne⟩
  · rw [if_neg h]
    exact ⟨rfl, rfl, rfl, rfl, fun _ => rfl⟩

/-- C5: the transactions page's month view returns exactly the stored
transactions whose `'yyyy-MM'` bucket (derived from `date`) equals the
current month's bucket — it is a permutation of the month's filter, its
members are characterised by the bucket equality — and it is ordered by date
descending (most recent first). -/
theorem filteredTransactions_month_view (s : AppState) :
    (filteredTransactions s).Perm
      (s.transactions.filter fun t => isSameMonth t.date s.currentMonth)
    ∧ (∀ t : Transaction, t ∈ filteredTransactions s ↔
        t ∈ s.transactions ∧ t.date.yearMonth = s.currentMonth.yearMonth)
    ∧ (filteredTransactions s).Sorted txnDateDesc := by
  refine ⟨List.perm_insertionSort _ _, fun t => ?_,
    List.sorted_insertionSort _ _⟩
  rw [filteredTransactions, List.mem_insertionSort, List.mem_filter,
    isSameMonth_iff]

/-- C6: the dashboard's monthly summary computes `total` as the sum of the
amounts of the month's transactions, `transactionCount` as their number, and a
per-category breakdown (`categoryTotals`) whose subtotal for each category id
is the sum of the month's amounts in that category; the month's transactions
are exactly those whose bucket equals the current month's, and an empty month
yields the zeroed summary `total = 0`, `transactionCount = 0` rather than an
error. -/
theorem summary_aggregates (s : AppState) :
    (summary s).total = ((dashboardFiltered s).map Transaction.amount).sum
    ∧ (summary s).transactionCount = (dashboardFiltered s).length
    ∧ (∀ t : Transaction, t ∈ dashboardFiltered s ↔
        t ∈ s.transactions ∧ t.date.yearMonth = s.currentMonth.yearMonth)
    ∧ (∀ cid : String, lookupTotal (categoryTotals (dashboardFiltered s)) cid
        = (((dashboardFiltered s).filter fun t => t.categoryId == cid).map
            Transaction.amount).sum)
    ∧ (dashboardFiltered s = [] →
        (summary s).total = 0 ∧ (summary s).transactionCount = 0) := by
  have htotal : (summary s).total
      = ((dashboardFiltered s).map Transaction.amount).sum := by
    rw [show (summary s).total
      = (dashboardFiltered s).foldl (fun sum t => sum + t.amount) 0 from rfl,
      foldl_add_amount, zero_add]
  have hcount : (summary s).transactionCount = (dashboardFiltered s).length :=
    rfl
  refine ⟨htotal, hcount, fun t => ?_, fun cid => ?_, fun hempty => ?_⟩
  · rw [dashboardFiltered, List.mem_filter, isSameMonth_iff]
  · rw [categoryTotals, lookupTotal_foldl, lookupTotal_nil, zero_add]
  · rw [htotal, hcount, hempty]
    exact ⟨rfl, rfl⟩

/-- A concrete backend-ledger category for the round-trip witness. -/
def ledgerCatFood : LedgerCategory :=
  { id := "food-001", name := "Food & Dining", color := "#FF6B6B",
    icon := "pizza", createdAt := "t0" }

/-- A concrete backend-ledger transaction for the round-trip witness. -/
def ledgerTxnFood : LedgerTransaction :=
  { id := "txn-001", amount := 25, categoryId := "food-001",
    categoryName := "Food & Dining", notes := none, date := ⟨2024, 1, 15⟩,
    yearMonth := (2024, 1), createdAt := "t0", updatedAt := "t0" }

/-- A concrete backend ledger for the round-trip witness. -/
def ledger0 : Ledger :=
  { categories := [ledgerCatFood], transactions := [ledgerTxnFood] }

/-- C7: for a store whose record ids are distinct (the spec's opaque unique
identifiers), `export_data` followed by `import_data` into a freshly emptied
store reproduces the identical categories and transactions, and re-importing
the unchanged export leaves the store equivalent (export → import is
idempotent). -/
theorem exportImport_roundTrip (l : Ledger)
    (h1 : (l.categories.map LedgerCategory.id).Nodup)
    (h2 : (l.transactions.map LedgerTransaction.id).Nodup) :
    importData (exportData l) emptyLedger = l
    ∧ importData (exportData l) (importData (exportData l) emptyLedger)
      = importData (exportData l) emptyLedger := by
  have hcat : l.categories.foldl (upsertBy LedgerCategory.id) []
      = l.categories := by
    simpa using foldl_upsert_of_disjoint LedgerCategory.id l.categories []
      h1 (by simp)
  have htxn : l.transactions.foldl (upsertBy LedgerTransaction.id) []
      = l.transactions := by
    simpa using foldl_upsert_of_disjoint LedgerTransaction.id l.transactions []
      h2 (by simp)
  have hfirst : importData (exportData l) emptyLedger = l := by
    show Ledger.mk (l.categories.foldl (upsertBy LedgerCategory.id) [])
      (l.transactions.foldl (upsertBy LedgerTransaction.id) []) = l
    rw [hcat, htxn]
  refine ⟨hfirst, ?_⟩
  rw [hfirst]
  show Ledger.mk (l.categories.foldl (upsertBy LedgerCategory.id) l.categories)
    (l.transactions.foldl (upsertBy LedgerTransaction.id) l.transactions) = l
  rw [foldl_upsert_self LedgerCategory.id l.categories l.categories h1
      (fun x hx => hx),
    foldl_upsert_self LedgerTransaction.id l.transactions l.transactions h2
      (fun x hx => hx)]

/-- Witness for the C7 theorem at the concrete ledger `ledger0`. -/
theorem exportImport_roundTrip_witness :
    importData (exportData ledger0) emptyLedger = ledger0
    ∧ importData (exportData ledger0)
        (importData (exportData ledger0) emptyLedger)
      = importData (exportData ledger0) emptyLedger :=
  exportImport_roundTrip ledger0 (by decide) (by decide)

/-- Stepping to the next month preserves being the first of a month. -/
theorem addOneMonth_day_one (d : ISODate) (h : d.day = 1) :
    (addOneMonth d).day = 1 := by
  simp only [addOneMonth]
  rw [h]
  exact Nat.min_eq_left (daysInMonth_pos _ _)

/-- Stepping to the previous month preserves being the first of a month. -/
theorem subOneMonth_day_one (d : ISODate) (h : d.day = 1) :
    (subOneMonth d).day = 1 := by
  simp only [subOneMonth]
  rw [h]
  exact Nat.min_eq_left (daysInMonth_pos _ _)

/-- C10: in every reachable store state, `currentMonth` is the first day of a
calendar month — `currentMonth = startOfMonth(currentMonth)`. The property
holds in the initial state and is preserved by `setCurrentMonth`, `nextMonth`
and `prevMonth` (and by the data operations, which do not touch
`currentMonth`). -/
theorem currentMonth_is_month_start (s : AppState) (h : ReachableState s) :
    startOfMonth s.currentMonth = s.currentMonth := by
  induction h with
  | init d => rfl
  | addTxn today newId nowTs txn s _ ih => exact ih
  | updateTxn id p s _ ih => exact ih
  | deleteTxn id s _ ih => exact ih
  | addCat newId nowTs c s _ ih => exact ih
  | deleteCat id s _ ih => exact ih
  | setMonth d s _ _ => rfl
  | stepNext s _ ih =>
    rw [startOfMonth_eq_iff]
    exact addOneMonth_day_one _ ((startOfMonth_eq_iff _).mp ih)
  | stepPrev s _ ih =>
    rw [startOfMonth_eq_iff]
    exact subOneMonth_day_one _ ((startOfMonth_eq_iff _).mp ih)

/-- The initial store state for a current date of May 17, 2024. -/
def initialMay2024 : AppState :=
  { categories := [], transactions := [],
    currentMonth := startOfMonth ⟨2024, 5, 17⟩ }

/-- Witness for the C10 theorem at the initial state for May 17, 2024. -/
theorem currentMonth_is_month_start_witness :
    startOfMonth initialMay2024.currentMonth = initialMay2024.currentMonth :=
  currentMonth_is_month_start initialMay2024
    (ReachableState.init ⟨2024, 5, 17⟩)

end ExpenseTracker
